import Mathlib

/-!
# VideoTranscoder front end: the job-lifecycle logic of `App.jsx`

A shallow embedding of the stateful part of `src/VideoTranscoder-FE/src/App.jsx`:
the React state of `App`, the `pollingInterval` ref, the browser's table of
active interval timers, and the two asynchronous handlers `handleSubmit` and
`pollStatus`.

An `async` function runs to its next `await` without interruption, so each
handler is split at its `await fetch(...)`: a part that runs when the handler is
called and issues the request, and a part that runs when the request settles.
`setInterval` fires its callback every 3000 ms whether or not the `fetch` of an
earlier callback has settled, so several status requests of one loop can be in
flight at once; the state keeps the list of suspended callbacks.
-/

namespace VideoTranscoder

/-- Outcome of `await fetch(..)` followed by the `response.ok` test and
`await response.json()`: the three ways of landing in the `catch` block, or the
parsed body of an ok response. -/
inductive FetchResult (α : Type) where
  /-- The promise of `fetch` rejected (no connection, timeout). -/
  | threw : FetchResult α
  /-- A response arrived and `response.ok` is false. -/
  | notOk : FetchResult α
  /-- The response was ok and `response.json()` rejected. -/
  | badBody : FetchResult α
  /-- The response was ok and its body parsed to `data`. -/
  | ok (data : α) : FetchResult α
  deriving DecidableEq, Repr

/-- Body of an ok answer of `POST /upload_video/`; the handler reads `data.video_id`. -/
structure UploadData where
  video_id : String
  deriving DecidableEq, Repr

/-- Body of an ok answer of `GET /video_status/{id}`; the callback reads
`data.progress`, `data.status` and `data.transcoded_video_url`. -/
structure StatusData where
  progress : Int
  status : String
  transcoded_video_url : String
  deriving DecidableEq, Repr

/-- A network request issued by the component. -/
inductive Request where
  /-- The `POST /upload_video/` of `handleSubmit`, with the three form fields. -/
  | upload (file output_format video_quality : String) : Request
  /-- The `GET /video_status/{vidId}` of the poll callback. -/
  | status (vidId : String) : Request
  deriving DecidableEq, Repr

/-- State of the component and of the browser resources it uses.

The first nine fields are the `useState` cells of `App`, `pollingInterval` is
the ref (`none` for `null`). `timers` is the browser's set of active interval
timers created by `pollStatus`, each with the `vidId` its callback closes over,
and `nextTimer` the handle `setInterval` returns next. `requests` logs the
requests issued so far. `uploadPending` says that a call of `handleSubmit` is
suspended at its `await fetch`, and `pollsInFlight` lists the poll callbacks
suspended at theirs (by `vidId`). `statusLog` records the arguments of the
`setStatus` calls in order. -/
structure State where
  videoFile : Option String
  outputFormat : String
  quality : String
  message : String
  uploading : Bool
  progress : Int
  status : String
  downloadUrl : String
  videoId : Option String
  pollingInterval : Option Nat
  timers : List (Nat × String)
  nextTimer : Nat
  requests : List Request
  uploadPending : Bool
  pollsInFlight : List String
  statusLog : List String
  deriving DecidableEq, Repr

/-- The state on first render (lines 4-13): the `useState` and `useRef` defaults,
no timer, nothing requested. -/
def initial : State :=
  { videoFile := none, outputFormat := "mp4", quality := "720p", message := "",
    uploading := false, progress := 0, status := "idle", downloadUrl := "",
    videoId := none, pollingInterval := none, timers := [], nextTimer := 1,
    requests := [], uploadPending := false, pollsInFlight := [], statusLog := [] }

/-- The `<option>` values of the output-format `<select>` (lines 123-126). -/
def formatOptions : List String := ["mp4", "mkv", "mov", "avi"]

/-- The `<option>` values of the quality `<select>` (lines 139-142). -/
def qualityOptions : List String := ["360p", "480p", "720p", "1080p"]

/-- The call `setStatus(v)`. -/
def setStatus (s : State) (v : String) : State :=
  { s with status := v, statusLog := s.statusLog ++ [v] }

/-- The call `clearInterval(pollingInterval.current)`: the timer whose handle the
ref holds stops; the ref itself keeps its value. With `null` in the ref, or a
handle that is no longer active, nothing happens. -/
def clearInterval (s : State) : State :=
  match s.pollingInterval with
  | none => s
  | some t => { s with timers := s.timers.filter (fun x => x.1 != t) }

/-- Lines 16-20, `handleFileChange`: the first selected file, if any, becomes
`videoFile`. -/
def handleFileChange (s : State) (files : List String) : State :=
  match files with
  | [] => s
  | f :: _ => { s with videoFile := some f }

/-- Lines 66-92, `pollStatus(vidId)`: `setInterval` starts a new timer whose
handle is stored in the ref. -/
def pollStatus (s : State) (vidId : String) : State :=
  { s with pollingInterval := some s.nextTimer,
           timers := s.timers ++ [(s.nextTimer, vidId)],
           nextTimer := s.nextTimer + 1 }

/-- Lines 24-45 of `handleSubmit`: from the call up to the `await fetch`. Without
a file only the message is set and the handler returns; otherwise the state is
reset for an upload and the request is issued with the current form values. -/
def handleSubmitStart (s : State) : State :=
  match s.videoFile with
  | none => { s with message := "Please select a video file." }
  | some f =>
    let s1 := { s with uploading := true, message := "Uploading video...", progress := 0 }
    let s2 := setStatus s1 "uploading"
    { s2 with requests := s2.requests ++ [Request.upload f s2.outputFormat s2.quality],
              uploadPending := true }

/-- Lines 46-62 of `handleSubmit`: from the settling of the upload request to the
end of the `finally` block. -/
def handleSubmitResume (s : State) (r : FetchResult UploadData) : State :=
  let s1 := { s with uploadPending := false }
  let s2 :=
    match r with
    | FetchResult.ok data =>
      let a := { s1 with videoId := some data.video_id,
                         message := "Video uploaded successfully. Conversion started..." }
      pollStatus (setStatus a "processing") data.video_id
    | _ => setStatus { s1 with message := "Error uploading video." } "error"
  { s2 with uploading := false }

/-- Lines 23-63, `handleSubmit` run from call to completion, the upload request
(if one is issued) settling with `r`. -/
def handleSubmit (s : State) (r : FetchResult UploadData) : State :=
  match s.videoFile with
  | none => handleSubmitStart s
  | some _ => handleSubmitResume (handleSubmitStart s) r

/-- Lines 67-71, the interval callback from its call up to the `await fetch`:
the status request for `vidId` is issued. -/
def pollTick (s : State) (vidId : String) : State :=
  { s with requests := s.requests ++ [Request.status vidId],
           pollsInFlight := s.pollsInFlight ++ [vidId] }

/-- Lines 72-90, the interval callback from the settling of its status request
to its end. -/
def pollResume (s : State) (r : FetchResult StatusData) : State :=
  match r with
  | FetchResult.ok data =>
    let s1 := setStatus { s with progress := data.progress } data.status
    if data.status = "completed" then
      clearInterval { s1 with downloadUrl := data.transcoded_video_url,
                              message := "Conversion completed!" }
    else if data.status = "failed" then
      clearInterval { s1 with message := "Conversion failed." }
    else s1
  | _ => clearInterval { s with message := "Error fetching conversion status." }

/-- What can happen to the component. -/
inductive Event where
  /-- The file input changes to `files`. -/
  | fileChange (files : List String) : Event
  /-- An option of the output-format select is chosen. -/
  | formatChange (v : String) : Event
  /-- An option of the quality select is chosen. -/
  | qualityChange (v : String) : Event
  /-- The form is submitted with the Convert button. -/
  | submit : Event
  /-- The upload request of the suspended `handleSubmit` settles. -/
  | uploadResponse (r : FetchResult UploadData) : Event
  /-- The interval timer with handle `t` fires. -/
  | tick (t : Nat) : Event
  /-- The status request of the `i`-th suspended poll callback settles. -/
  | statusResponse (i : Nat) (r : FetchResult StatusData) : Event
  deriving DecidableEq, Repr

/-- The Convert button is disabled (line 148). -/
def buttonDisabled (s : State) : Bool :=
  s.uploading || s.status == "processing"

/-- One event, or `none` when the event cannot happen in `s`: a select offers
only its options, a disabled button does not submit, a response needs a request
in flight and a tick an active timer. -/
def step (s : State) : Event → Option State
  | Event.fileChange files => some (handleFileChange s files)
  | Event.formatChange v =>
    if v ∈ formatOptions then some { s with outputFormat := v } else none
  | Event.qualityChange v =>
    if v ∈ qualityOptions then some { s with quality := v } else none
  | Event.submit =>
    if buttonDisabled s then none else some (handleSubmitStart s)
  | Event.uploadResponse r =>
    if s.uploadPending then some (handleSubmitResume s r) else none
  | Event.tick t =>
    match s.timers.find? (fun x => x.1 == t) with
    | some x => some (pollTick s x.2)
    | none => none
  | Event.statusResponse i r =>
    if i < s.pollsInFlight.length then
      some (pollResume { s with pollsInFlight := s.pollsInFlight.eraseIdx i } r)
    else none

/-- A sequence of events from `s`; `none` as soon as one of them cannot happen. -/
def run (s : State) : List Event → Option State
  | [] => some s
  | e :: es =>
    match step s e with
    | some s1 => run s1 es
    | none => none

/-- The status values the service is specified to report. -/
def knownStatuses : List String := ["processing", "completed", "failed"]

/-- Every ok status response in the event carries one of the three known
status values. -/
def Event.statusKnown : Event → Bool
  | Event.statusResponse _ (FetchResult.ok data) => decide (data.status ∈ knownStatuses)
  | _ => true

/-- The event belongs to the poll loop: a timer tick or a settled status request. -/
def Event.isPoll : Event → Bool
  | Event.tick _ => true
  | Event.statusResponse _ _ => true
  | _ => false

/-- The state after the ok status responses `ds` were handled in order. -/
def applyResponses (s : State) (ds : List StatusData) : State :=
  ds.foldl (fun acc d => pollResume acc (FetchResult.ok d)) s


/-- The state once a file was chosen, the upload answered with id `abc123`, and
the poll loop was started: the first job is being processed. -/
def jobStarted : State :=
  handleSubmit (handleFileChange initial ["a.mp4"]) (FetchResult.ok ⟨"abc123"⟩)

/-- The form as it would be with a file chosen and `wmv`, which is not an option
of the select, as output format. -/
def wmvForm : State :=
  { handleFileChange initial ["a.mp4"] with outputFormat := "wmv" }

/-- The status an event reports: the status of an ok status response, nothing
for any other event. -/
def Event.okStatus : Event → Option String
  | Event.statusResponse _ (FetchResult.ok data) => some data.status
  | _ => none

/-- The status values reported by the ok status responses among `es`, in order:
the arguments of the `setStatus` calls the poll callback makes for them. -/
def respStatuses (es : List Event) : List String :=
  es.filterMap Event.okStatus

/-- The event is a tick that fires while an earlier status request is still in
flight. -/
def Event.overlaps (s : State) : Event → Bool
  | Event.tick _ => !s.pollsInFlight.isEmpty
  | _ => false

/-- Along the sequence `es` from `s` no tick overlaps an earlier status request:
every status request settles before the next tick fires. -/
def serial (s : State) : List Event → Bool
  | [] => true
  | e :: es =>
    !(e.overlaps s) &&
      match step s e with
      | some s1 => serial s1 es
      | none => true

/-- The first job after two ticks: two status requests are in flight. -/
def twoPolls : State := pollTick (pollTick jobStarted "abc123") "abc123"

/-- The first job after two ticks, the second request answered with `completed`
at 100 while the first is still in flight. -/
def twoPollsCompleted : State :=
  pollResume { twoPolls with pollsInFlight := ["abc123"] }
    (FetchResult.ok ⟨100, "completed", "http://x/y.mp4"⟩)

/-- A poll loop of the first job without overlap: a tick answered `processing` at
40, then a tick answered `completed` at 100. -/
def serialPolls : List Event :=
  [Event.tick 1, Event.statusResponse 0 (FetchResult.ok ⟨40, "processing", ""⟩),
   Event.tick 1,
   Event.statusResponse 0 (FetchResult.ok ⟨100, "completed", "http://x/y.mp4"⟩)]

/-- What holds of the timers in every state the user interface can reach: every
active timer is the one held in the ref, there is at most one, it exists only
while `status` is `processing` and no upload is pending, and a pending upload
keeps `uploading` set. -/
structure OneLoop (s : State) : Prop where
  owned : ∀ x ∈ s.timers, s.pollingInterval = some x.1
  atMostOne : s.timers.length ≤ 1
  processing : s.timers ≠ [] → s.status = "processing" ∧ s.uploadPending = false
  pending : s.uploadPending = true → s.uploading = true

/-! ## Field lemmas -/

theorem clearInterval_status (s : State) : (clearInterval s).status = s.status := by
  unfold clearInterval; split <;> rfl

theorem clearInterval_progress (s : State) : (clearInterval s).progress = s.progress := by
  unfold clearInterval; split <;> rfl

theorem clearInterval_downloadUrl (s : State) :
    (clearInterval s).downloadUrl = s.downloadUrl := by
  unfold clearInterval; split <;> rfl

theorem clearInterval_message (s : State) : (clearInterval s).message = s.message := by
  unfold clearInterval; split <;> rfl

theorem clearInterval_uploading (s : State) :
    (clearInterval s).uploading = s.uploading := by
  unfold clearInterval; split <;> rfl

theorem clearInterval_uploadPending (s : State) :
    (clearInterval s).uploadPending = s.uploadPending := by
  unfold clearInterval; split <;> rfl

theorem clearInterval_pollingInterval (s : State) :
    (clearInterval s).pollingInterval = s.pollingInterval := by
  unfold clearInterval; split <;> rfl

theorem clearInterval_pollsInFlight (s : State) :
    (clearInterval s).pollsInFlight = s.pollsInFlight := by
  unfold clearInterval; split <;> rfl

theorem clearInterval_outputFormat (s : State) :
    (clearInterval s).outputFormat = s.outputFormat := by
  unfold clearInterval; split <;> rfl

theorem clearInterval_quality (s : State) : (clearInterval s).quality = s.quality := by
  unfold clearInterval; split <;> rfl

/-- When every active timer is the one the ref holds, `clearInterval` leaves no
timer active. -/
theorem clearInterval_timers_of_owned (s : State)
    (hown : ∀ x ∈ s.timers, s.pollingInterval = some x.1) :
    (clearInterval s).timers = [] := by
  unfold clearInterval
  cases hp : s.pollingInterval with
  | none =>
    apply List.eq_nil_iff_forall_not_mem.mpr
    intro x hx
    have := hown x hx
    rw [hp] at this
    cases this
  | some t =>
    simp only [List.filter_eq_nil_iff]
    intro x hx
    have := hown x hx
    rw [hp] at this
    cases this
    simp

/-- With no active timer no tick can happen. -/
theorem step_tick_of_no_timers (s : State) (h : s.timers = []) (t : Nat) :
    step s (Event.tick t) = none := by
  simp [step, h]

/-- An ok status response records the progress it carries. -/
theorem pollResume_ok_progress (s : State) (d : StatusData) :
    (pollResume s (FetchResult.ok d)).progress = d.progress := by
  unfold pollResume
  simp only
  split_ifs <;> simp [clearInterval_progress, setStatus]

/-- An ok status response records the status it carries. -/
theorem pollResume_ok_status (s : State) (d : StatusData) :
    (pollResume s (FetchResult.ok d)).status = d.status := by
  unfold pollResume
  simp only
  split_ifs <;> simp [clearInterval_status, setStatus]

/-! ## The one-loop invariant -/

theorem oneLoop_initial : OneLoop initial := by
  constructor <;> simp [initial]

theorem oneLoop_handleFileChange (s : State) (files : List String) (h : OneLoop s) :
    OneLoop (handleFileChange s files) := by
  cases files with
  | nil => exact h
  | cons f fs => exact ⟨h.owned, h.atMostOne, h.processing, h.pending⟩

theorem oneLoop_handleSubmitStart (s : State) (h : OneLoop s)
    (hb : buttonDisabled s = false) : OneLoop (handleSubmitStart s) := by
  have hb2 : s.uploading = false ∧ s.status ≠ "processing" := by
    simpa [buttonDisabled] using hb
  have hnil : s.timers = [] := by
    by_contra hne
    exact hb2.2 (h.processing hne).1
  unfold handleSubmitStart
  cases s.videoFile with
  | none => exact ⟨h.owned, h.atMostOne, h.processing, h.pending⟩
  | some f => constructor <;> simp [setStatus, hnil]

theorem oneLoop_handleSubmitResume (s : State) (r : FetchResult UploadData)
    (h : OneLoop s) (hp : s.uploadPending = true) : OneLoop (handleSubmitResume s r) := by
  have hnil : s.timers = [] := by
    by_contra hne
    have := (h.processing hne).2
    rw [hp] at this
    cases this
  unfold handleSubmitResume
  cases r <;> constructor <;> simp [setStatus, pollStatus, hnil]

theorem oneLoop_pollTick (s : State) (v : String) (h : OneLoop s) :
    OneLoop (pollTick s v) :=
  ⟨h.owned, h.atMostOne, h.processing, h.pending⟩

/-- A state in which no timer is active and a pending upload keeps `uploading`
set satisfies the invariant. -/
theorem oneLoop_of_no_timers (s : State) (hnil : s.timers = [])
    (hp : s.uploadPending = true → s.uploading = true) : OneLoop s := by
  constructor
  · intro x hx; rw [hnil] at hx; cases hx
  · simp [hnil]
  · intro hne; exact absurd hnil hne
  · exact hp

theorem oneLoop_pollResume (s : State) (r : FetchResult StatusData) (h : OneLoop s)
    (hk : ∀ d, r = FetchResult.ok d → d.status ∈ knownStatuses) :
    OneLoop (pollResume s r) := by
  have hclear : ∀ s1 : State, s1.timers = s.timers →
      s1.pollingInterval = s.pollingInterval → s1.uploadPending = s.uploadPending →
      s1.uploading = s.uploading → OneLoop (clearInterval s1) := by
    intro s1 ht hpi hup hu
    apply oneLoop_of_no_timers
    · apply clearInterval_timers_of_owned
      rw [ht, hpi]; exact h.owned
    · rw [clearInterval_uploadPending, clearInterval_uploading, hup, hu]
      exact h.pending
  cases r with
  | threw => exact hclear _ rfl rfl rfl rfl
  | notOk => exact hclear _ rfl rfl rfl rfl
  | badBody => exact hclear _ rfl rfl rfl rfl
  | ok d =>
    have hd := hk d rfl
    unfold pollResume
    simp only
    split_ifs with h1 h2
    · exact hclear _ rfl rfl rfl rfl
    · exact hclear _ rfl rfl rfl rfl
    · have hproc : d.status = "processing" := by
        simp [knownStatuses] at hd
        rcases hd with hd | hd | hd
        · exact hd
        · exact absurd hd h1
        · exact absurd hd h2
      refine ⟨h.owned, h.atMostOne, ?_, h.pending⟩
      intro hne
      exact ⟨hproc, (h.processing hne).2⟩

/-- Every event that can happen, with a known status in its response, keeps the
invariant. -/
theorem oneLoop_step (s s1 : State) (e : Event) (h : OneLoop s)
    (hk : e.statusKnown = true) (hs : step s e = some s1) : OneLoop s1 := by
  cases e with
  | fileChange files =>
    simp only [step, Option.some.injEq] at hs
    subst hs; exact oneLoop_handleFileChange s files h
  | formatChange v =>
    simp only [step] at hs
    split_ifs at hs
    simp only [Option.some.injEq] at hs
    subst hs; exact ⟨h.owned, h.atMostOne, h.processing, h.pending⟩
  | qualityChange v =>
    simp only [step] at hs
    split_ifs at hs
    simp only [Option.some.injEq] at hs
    subst hs; exact ⟨h.owned, h.atMostOne, h.processing, h.pending⟩
  | submit =>
    simp only [step] at hs
    split_ifs at hs with hb
    simp only [Option.some.injEq] at hs
    subst hs; exact oneLoop_handleSubmitStart s h (by simpa using hb)
  | uploadResponse r =>
    simp only [step] at hs
    split_ifs at hs with hp
    simp only [Option.some.injEq] at hs
    subst hs; exact oneLoop_handleSubmitResume s r h hp
  | tick t =>
    simp only [step] at hs
    split at hs
    · simp only [Option.some.injEq] at hs
      subst hs; exact oneLoop_pollTick s _ h
    · cases hs
  | statusResponse i r =>
    simp only [step] at hs
    split_ifs at hs with hi
    simp only [Option.some.injEq] at hs
    subst hs
    apply oneLoop_pollResume
    · exact ⟨h.owned, h.atMostOne, h.processing, h.pending⟩
    · intro d hd
      subst hd
      simpa [Event.statusKnown] using hk

/-- The invariant holds along every sequence of events with known statuses. -/
theorem oneLoop_run (es : List Event) (s s1 : State) (h : OneLoop s)
    (hk : ∀ e ∈ es, e.statusKnown = true) (hr : run s es = some s1) : OneLoop s1 := by
  induction es generalizing s with
  | nil =>
    simp only [run, Option.some.injEq] at hr
    subst hr; exact h
  | cons e es ih =>
    simp only [run] at hr
    cases hstep : step s e with
    | none => rw [hstep] at hr; cases hr
    | some s2 =>
      rw [hstep] at hr
      exact ih s2 (oneLoop_step s s2 e h (hk e (List.mem_cons_self e es)) hstep)
        (fun e1 he1 => hk e1 (List.mem_cons_of_mem e he1)) hr

/-! ## Progress reporting -/

/-- C1, as stated, fails: after the responses 40 and then 30 of one job the
recorded progress is 30, not 40. -/
theorem progress_regresses_on_lower_value :
    (applyResponses jobStarted [⟨40, "processing", ""⟩]).progress = 40 ∧
    (applyResponses jobStarted [⟨40, "processing", ""⟩, ⟨30, "processing", ""⟩]).progress
      = 30 := by
  decide

/-- C1, amended: after any sequence of successful status responses handled by the
poll callback, the recorded progress is the progress value of the last response
of the sequence, whether lower or higher than what was recorded before. -/
theorem progress_is_last_reported (s : State) (ds : List StatusData) (d : StatusData) :
    (applyResponses s (ds ++ [d])).progress = d.progress := by
  simp only [applyResponses, List.foldl_append, List.foldl_cons, List.foldl_nil]
  exact pollResume_ok_progress _ d

/-! ## Completion -/

/-- C2: for a job whose timer is the one held in the ref (as it is while the job
is processing), handling a successful response with status `completed`, progress
`p` and url `u` leaves status `completed`, progress `p` and download url `u`, and
clears the timer: no timer is active and no tick can issue a further status
request. -/
theorem completion_transition (s : State) (p : Int) (u : String)
    (hown : ∀ x ∈ s.timers, s.pollingInterval = some x.1) :
    (pollResume s (FetchResult.ok ⟨p, "completed", u⟩)).status = "completed" ∧
    (pollResume s (FetchResult.ok ⟨p, "completed", u⟩)).progress = p ∧
    (pollResume s (FetchResult.ok ⟨p, "completed", u⟩)).downloadUrl = u ∧
    (pollResume s (FetchResult.ok ⟨p, "completed", u⟩)).timers = [] ∧
    ∀ t, step (pollResume s (FetchResult.ok ⟨p, "completed", u⟩)) (Event.tick t) = none := by
  have ht : (pollResume s (FetchResult.ok ⟨p, "completed", u⟩)).timers = [] := by
    simp only [pollResume, if_true]
    exact clearInterval_timers_of_owned _ hown
  refine ⟨pollResume_ok_status _ _, pollResume_ok_progress _ _, ?_, ht,
    step_tick_of_no_timers _ ht⟩
  simp [pollResume, clearInterval_downloadUrl]

/-- C2 at the first job: `jobStarted` is processing with timer 1 held in the ref. -/
theorem completion_transition_witness :
    (jobStarted.status = "processing" ∧ jobStarted.timers ≠ []) ∧
    (∀ x ∈ jobStarted.timers, jobStarted.pollingInterval = some x.1) ∧
    (pollResume jobStarted (FetchResult.ok ⟨100, "completed", "http://x/y.mp4"⟩)).status
      = "completed" ∧
    (pollResume jobStarted (FetchResult.ok ⟨100, "completed", "http://x/y.mp4"⟩)).progress
      = 100 ∧
    (pollResume jobStarted
      (FetchResult.ok ⟨100, "completed", "http://x/y.mp4"⟩)).downloadUrl = "http://x/y.mp4" ∧
    (pollResume jobStarted (FetchResult.ok ⟨100, "completed", "http://x/y.mp4"⟩)).timers
      = [] ∧
    ∀ t, step (pollResume jobStarted (FetchResult.ok ⟨100, "completed", "http://x/y.mp4"⟩))
      (Event.tick t) = none :=
  ⟨by decide, by decide,
    completion_transition jobStarted 100 "http://x/y.mp4" (by decide)⟩

/-! ## Failed status checks -/

/-- C3, as stated, fails: the first job has timer 1 active; after one tick whose
status request fails the timer is gone, and the next tick cannot happen. -/
theorem failed_check_stops_polling :
    (run jobStarted [Event.tick 1]).map State.timers = some [(1, "abc123")] ∧
    (run jobStarted [Event.tick 1, Event.statusResponse 0 FetchResult.notOk]).map
      State.timers = some [] ∧
    run jobStarted [Event.tick 1, Event.statusResponse 0 FetchResult.notOk, Event.tick 1]
      = none := by
  decide

/-- C3, amended: for a job whose timer is the one held in the ref, a failed status
check (the fetch throws, the response is not ok, or its body does not parse) does
not change the status, so a processing job is not marked failed; it sets the
message to "Error fetching conversion status." and clears the timer, so polling
stops and no further tick is issued. -/
theorem failed_check_keeps_status_stops_polling (s : State) (r : FetchResult StatusData)
    (hr : ∀ d, r ≠ FetchResult.ok d)
    (hown : ∀ x ∈ s.timers, s.pollingInterval = some x.1) :
    (pollResume s r).status = s.status ∧
    (pollResume s r).message = "Error fetching conversion status." ∧
    (pollResume s r).timers = [] ∧
    ∀ t, step (pollResume s r) (Event.tick t) = none := by
  have hform : pollResume s r
      = clearInterval { s with message := "Error fetching conversion status." } := by
    cases r with
    | ok d => exact absurd rfl (hr d)
    | threw => rfl
    | notOk => rfl
    | badBody => rfl
  have ht : (pollResume s r).timers = [] := by
    rw [hform]; exact clearInterval_timers_of_owned _ hown
  refine ⟨?_, ?_, ht, step_tick_of_no_timers _ ht⟩
  · rw [hform, clearInterval_status]
  · rw [hform, clearInterval_message]

/-- C3 amended, at the first job with a status check that threw. -/
theorem failed_check_keeps_status_stops_polling_witness :
    (∀ d, (FetchResult.threw : FetchResult StatusData) ≠ FetchResult.ok d) ∧
    (∀ x ∈ jobStarted.timers, jobStarted.pollingInterval = some x.1) ∧
    (pollResume jobStarted FetchResult.threw).status = jobStarted.status ∧
    (pollResume jobStarted FetchResult.threw).message
      = "Error fetching conversion status." ∧
    (pollResume jobStarted FetchResult.threw).timers = [] ∧
    ∀ t, step (pollResume jobStarted FetchResult.threw) (Event.tick t) = none :=
  ⟨(fun _ h => by cases h), by decide,
    failed_check_keeps_status_stops_polling jobStarted FetchResult.threw
      (fun _ h => by cases h) (by decide)⟩

/-! ## Submission -/

/-- C4: with a file selected and an upload that throws, is answered with a
response that is not ok, or whose body does not parse, `handleSubmit` ends with
status `error`, message "Error uploading video.", `videoId` as it was (no id is
assigned), the timers and the ref as they were (no poll loop is started), and
`uploading` false. -/
theorem submission_failure_recorded (s : State) (f : String) (r : FetchResult UploadData)
    (hf : s.videoFile = some f) (hr : ∀ d, r ≠ FetchResult.ok d) :
    (handleSubmit s r).status = "error" ∧
    (handleSubmit s r).message = "Error uploading video." ∧
    (handleSubmit s r).videoId = s.videoId ∧
    (handleSubmit s r).timers = s.timers ∧
    (handleSubmit s r).pollingInterval = s.pollingInterval ∧
    (handleSubmit s r).nextTimer = s.nextTimer ∧
    (handleSubmit s r).uploading = false := by
  cases r with
  | ok d => exact absurd rfl (hr d)
  | threw => simp [handleSubmit, handleSubmitStart, handleSubmitResume, setStatus, hf]
  | notOk => simp [handleSubmit, handleSubmitStart, handleSubmitResume, setStatus, hf]
  | badBody => simp [handleSubmit, handleSubmitStart, handleSubmitResume, setStatus, hf]

/-- C4 at the initial state with the file `a.mp4` chosen and an upload answered
with a response that is not ok. -/
theorem submission_failure_recorded_witness :
    (handleFileChange initial ["a.mp4"]).videoFile = some "a.mp4" ∧
    (∀ d, (FetchResult.notOk : FetchResult UploadData) ≠ FetchResult.ok d) ∧
    (handleSubmit (handleFileChange initial ["a.mp4"]) FetchResult.notOk).status = "error" ∧
    (handleSubmit (handleFileChange initial ["a.mp4"]) FetchResult.notOk).message
      = "Error uploading video." ∧
    (handleSubmit (handleFileChange initial ["a.mp4"]) FetchResult.notOk).videoId
      = (handleFileChange initial ["a.mp4"]).videoId ∧
    (handleSubmit (handleFileChange initial ["a.mp4"]) FetchResult.notOk).timers
      = (handleFileChange initial ["a.mp4"]).timers ∧
    (handleSubmit (handleFileChange initial ["a.mp4"]) FetchResult.notOk).pollingInterval
      = (handleFileChange initial ["a.mp4"]).pollingInterval ∧
    (handleSubmit (handleFileChange initial ["a.mp4"]) FetchResult.notOk).nextTimer
      = (handleFileChange initial ["a.mp4"]).nextTimer ∧
    (handleSubmit (handleFileChange initial ["a.mp4"]) FetchResult.notOk).uploading
      = false :=
  ⟨rfl, (fun _ h => by cases h),
    submission_failure_recorded (handleFileChange initial ["a.mp4"]) "a.mp4"
      FetchResult.notOk rfl (fun _ h => by cases h)⟩

/-- C6: with no file selected `handleSubmit` only sets the message to "Please
select a video file.": every other field, among them the request log, the
timers, status, progress, uploading, videoId and downloadUrl, is unchanged, and
the handler is not left suspended at a request. -/
theorem missing_file_rejected (s : State) (r : FetchResult UploadData)
    (hf : s.videoFile = none) :
    handleSubmit s r = { s with message := "Please select a video file." } ∧
    (handleSubmit s r).requests = s.requests ∧
    (handleSubmit s r).timers = s.timers ∧
    (handleSubmit s r).uploadPending = s.uploadPending ∧
    (handleSubmit s r).status = s.status ∧
    (handleSubmit s r).progress = s.progress ∧
    (handleSubmit s r).uploading = s.uploading ∧
    (handleSubmit s r).videoId = s.videoId ∧
    (handleSubmit s r).downloadUrl = s.downloadUrl := by
  have h : handleSubmit s r = { s with message := "Please select a video file." } := by
    simp [handleSubmit, handleSubmitStart, hf]
  rw [h]
  exact ⟨rfl, rfl, rfl, rfl, rfl, rfl, rfl, rfl, rfl⟩

/-- C6 at the initial state, where no file is selected. -/
theorem missing_file_rejected_witness :
    initial.videoFile = none ∧
    handleSubmit initial FetchResult.threw
      = { initial with message := "Please select a video file." } ∧
    (handleSubmit initial FetchResult.threw).requests = initial.requests ∧
    (handleSubmit initial FetchResult.threw).timers = initial.timers ∧
    (handleSubmit initial FetchResult.threw).uploadPending = initial.uploadPending ∧
    (handleSubmit initial FetchResult.threw).status = initial.status ∧
    (handleSubmit initial FetchResult.threw).progress = initial.progress ∧
    (handleSubmit initial FetchResult.threw).uploading = initial.uploading ∧
    (handleSubmit initial FetchResult.threw).videoId = initial.videoId ∧
    (handleSubmit initial FetchResult.threw).downloadUrl = initial.downloadUrl :=
  ⟨rfl, missing_file_rejected initial FetchResult.threw rfl⟩

/-- C8: with a file `f` selected, `handleSubmit` reaches its upload request with
status `uploading`, progress 0 and `uploading` true, the request carrying `f` and
the current form values; when the upload is answered with id `v` it ends with
`videoId = v`, status `processing`, a new timer for `v` held in the ref, and
`uploading` false. The `setStatus` calls of the run are `uploading` and then
`processing`, in this order. -/
theorem submission_through_uploading (s : State) (f v : String)
    (hf : s.videoFile = some f) :
    ((handleSubmitStart s).status = "uploading" ∧
      (handleSubmitStart s).progress = 0 ∧
      (handleSubmitStart s).uploading = true ∧
      (handleSubmitStart s).uploadPending = true ∧
      (handleSubmitStart s).requests
        = s.requests ++ [Request.upload f s.outputFormat s.quality]) ∧
    ((handleSubmit s (FetchResult.ok ⟨v⟩)).videoId = some v ∧
      (handleSubmit s (FetchResult.ok ⟨v⟩)).status = "processing" ∧
      (handleSubmit s (FetchResult.ok ⟨v⟩)).timers = s.timers ++ [(s.nextTimer, v)] ∧
      (handleSubmit s (FetchResult.ok ⟨v⟩)).pollingInterval = some s.nextTimer ∧
      (handleSubmit s (FetchResult.ok ⟨v⟩)).uploading = false ∧
      (handleSubmit s (FetchResult.ok ⟨v⟩)).uploadPending = false) ∧
    (handleSubmit s (FetchResult.ok ⟨v⟩)).statusLog
      = s.statusLog ++ ["uploading", "processing"] := by
  simp [handleSubmit, handleSubmitStart, handleSubmitResume, setStatus, pollStatus, hf]

/-- C8 at the initial state with the file `a.mp4` chosen and the upload answered
with id `abc123`. -/
theorem submission_through_uploading_witness :
    (handleFileChange initial ["a.mp4"]).videoFile = some "a.mp4" ∧
    (handleSubmitStart (handleFileChange initial ["a.mp4"])).status = "uploading" ∧
    (handleSubmit (handleFileChange initial ["a.mp4"]) (FetchResult.ok ⟨"abc123"⟩)).status
      = "processing" ∧
    (handleSubmit (handleFileChange initial ["a.mp4"]) (FetchResult.ok ⟨"abc123"⟩)).timers
      = [(1, "abc123")] ∧
    (handleSubmit (handleFileChange initial ["a.mp4"])
      (FetchResult.ok ⟨"abc123"⟩)).statusLog = ["uploading", "processing"] :=
  ⟨rfl,
    (submission_through_uploading (handleFileChange initial ["a.mp4"]) "a.mp4" "abc123"
      rfl).1.1,
    (submission_through_uploading (handleFileChange initial ["a.mp4"]) "a.mp4" "abc123"
      rfl).2.1.2.1,
    (submission_through_uploading (handleFileChange initial ["a.mp4"]) "a.mp4" "abc123"
      rfl).2.1.2.2.1,
    (submission_through_uploading (handleFileChange initial ["a.mp4"]) "a.mp4" "abc123"
      rfl).2.2⟩

/-! ## Form values -/

theorem pollResume_outputFormat (s : State) (r : FetchResult StatusData) :
    (pollResume s r).outputFormat = s.outputFormat := by
  cases r <;> unfold pollResume <;> simp only
  all_goals first
    | rw [clearInterval_outputFormat]
    | (split_ifs <;> simp [clearInterval_outputFormat, setStatus])

theorem pollResume_quality (s : State) (r : FetchResult StatusData) :
    (pollResume s r).quality = s.quality := by
  cases r <;> unfold pollResume <;> simp only
  all_goals first
    | rw [clearInterval_quality]
    | (split_ifs <;> simp [clearInterval_quality, setStatus])

/-- No event takes the form values out of the options of their selects. -/
theorem step_keeps_options (s s1 : State) (e : Event)
    (h : s.outputFormat ∈ formatOptions ∧ s.quality ∈ qualityOptions)
    (hs : step s e = some s1) :
    s1.outputFormat ∈ formatOptions ∧ s1.quality ∈ qualityOptions := by
  cases e with
  | fileChange files =>
    simp only [step, Option.some.injEq] at hs
    subst hs
    cases files <;> exact h
  | formatChange v =>
    simp only [step] at hs
    split_ifs at hs with hv
    simp only [Option.some.injEq] at hs
    subst hs; exact ⟨hv, h.2⟩
  | qualityChange v =>
    simp only [step] at hs
    split_ifs at hs with hv
    simp only [Option.some.injEq] at hs
    subst hs; exact ⟨h.1, hv⟩
  | submit =>
    simp only [step] at hs
    split_ifs at hs
    simp only [Option.some.injEq] at hs
    subst hs
    unfold handleSubmitStart
    cases s.videoFile <;> exact h
  | uploadResponse r =>
    simp only [step] at hs
    split_ifs at hs
    simp only [Option.some.injEq] at hs
    subst hs
    cases r <;> exact h
  | tick t =>
    simp only [step] at hs
    split at hs
    · simp only [Option.some.injEq] at hs
      subst hs; exact h
    · cases hs
  | statusResponse i r =>
    simp only [step] at hs
    split_ifs at hs
    simp only [Option.some.injEq] at hs
    subst hs
    rw [pollResume_outputFormat, pollResume_quality]
    exact h

theorem run_keeps_options (es : List Event) (s s1 : State)
    (h : s.outputFormat ∈ formatOptions ∧ s.quality ∈ qualityOptions)
    (hr : run s es = some s1) :
    s1.outputFormat ∈ formatOptions ∧ s1.quality ∈ qualityOptions := by
  induction es generalizing s with
  | nil =>
    simp only [run, Option.some.injEq] at hr
    subst hr; exact h
  | cons e es ih =>
    simp only [run] at hr
    cases hstep : step s e with
    | none => rw [hstep] at hr; cases hr
    | some s2 =>
      rw [hstep] at hr
      exact ih s2 (step_keeps_options s s2 e h hstep) hr

/-- C5, as stated, fails: with a file chosen and output format `wmv`, which is
not one of the four formats, `handleSubmit` issues the upload request with
`wmv` in it, and an ok answer takes the job to `processing`. -/
theorem invalid_format_is_uploaded :
    wmvForm.outputFormat ∉ formatOptions ∧
    (handleSubmitStart wmvForm).requests = [Request.upload "a.mp4" "wmv" "720p"] ∧
    (handleSubmit wmvForm (FetchResult.ok ⟨"abc123"⟩)).status = "processing" := by
  decide

/-- C5, amended: `handleSubmit` does not validate the output format or the
quality. Whenever a file is selected it sets status `uploading` and issues the
upload request with the current output format and quality, whatever they are.
The two values stay within the options of their selects in every state reached
from the initial one by events of the user interface, because the selects offer
nothing else. -/
theorem submit_uploads_without_validation :
    (∀ (s : State) (f : String), s.videoFile = some f →
      (handleSubmitStart s).status = "uploading" ∧
      (handleSubmitStart s).requests
        = s.requests ++ [Request.upload f s.outputFormat s.quality]) ∧
    (∀ (es : List Event) (s : State), run initial es = some s →
      s.outputFormat ∈ formatOptions ∧ s.quality ∈ qualityOptions) := by
  constructor
  · intro s f hf
    simp [handleSubmitStart, setStatus, hf]
  · intro es s hr
    exact run_keeps_options es initial s (by decide) hr

/-- C5 amended, at the form with `wmv` and at the first job. -/
theorem submit_uploads_without_validation_witness :
    (wmvForm.videoFile = some "a.mp4" ∧
      (handleSubmitStart wmvForm).status = "uploading" ∧
      (handleSubmitStart wmvForm).requests
        = wmvForm.requests ++ [Request.upload "a.mp4" wmvForm.outputFormat wmvForm.quality]) ∧
    (run initial [Event.fileChange ["a.mp4"], Event.formatChange "mkv", Event.submit]
        = some (handleSubmitStart
            { handleFileChange initial ["a.mp4"] with outputFormat := "mkv" }) ∧
      (handleSubmitStart
        { handleFileChange initial ["a.mp4"] with outputFormat := "mkv" }).outputFormat
          ∈ formatOptions ∧
      (handleSubmitStart
        { handleFileChange initial ["a.mp4"] with outputFormat := "mkv" }).quality
          ∈ qualityOptions) :=
  ⟨⟨rfl, submit_uploads_without_validation.1 wmvForm "a.mp4" rfl⟩,
    ⟨by decide, submit_uploads_without_validation.2
      [Event.fileChange ["a.mp4"], Event.formatChange "mkv", Event.submit] _ (by decide)⟩⟩

/-! ## Failure reasons -/

/-- C9: a failed upload in `handleSubmit` sets the message "Error uploading
video.", a failed status check in the poll callback sets "Error fetching
conversion status.", a status response reporting `failed` sets "Conversion
failed.", and the three messages are pairwise different. -/
theorem failure_reasons_distinct :
    (∀ (s : State) (f : String) (r : FetchResult UploadData), s.videoFile = some f →
      (∀ d, r ≠ FetchResult.ok d) → (handleSubmit s r).message = "Error uploading video.") ∧
    (∀ (s : State) (r : FetchResult StatusData), (∀ d, r ≠ FetchResult.ok d) →
      (pollResume s r).message = "Error fetching conversion status.") ∧
    (∀ (s : State) (p : Int) (u : String),
      (pollResume s (FetchResult.ok ⟨p, "failed", u⟩)).message = "Conversion failed.") ∧
    "Error uploading video." ≠ "Error fetching conversion status." ∧
    "Error uploading video." ≠ "Conversion failed." ∧
    "Error fetching conversion status." ≠ "Conversion failed." := by
  refine ⟨?_, ?_, ?_, by decide, by decide, by decide⟩
  · intro s f r hf hr
    cases r with
    | ok d => exact absurd rfl (hr d)
    | threw => simp [handleSubmit, handleSubmitStart, handleSubmitResume, setStatus, hf]
    | notOk => simp [handleSubmit, handleSubmitStart, handleSubmitResume, setStatus, hf]
    | badBody => simp [handleSubmit, handleSubmitStart, handleSubmitResume, setStatus, hf]
  · intro s r hr
    cases r with
    | ok d => exact absurd rfl (hr d)
    | threw => simp [pollResume, clearInterval_message]
    | notOk => simp [pollResume, clearInterval_message]
    | badBody => simp [pollResume, clearInterval_message]
  · intro s p u
    have h : ¬ ("failed" = "completed") := by decide
    simp [pollResume, clearInterval_message, setStatus, h]

/-- C9 at the initial form with a file and at the first job. -/
theorem failure_reasons_distinct_witness :
    (handleFileChange initial ["a.mp4"]).videoFile = some "a.mp4" ∧
    (handleSubmit (handleFileChange initial ["a.mp4"]) FetchResult.threw).message
      = "Error uploading video." ∧
    (pollResume jobStarted FetchResult.notOk).message
      = "Error fetching conversion status." ∧
    (pollResume jobStarted (FetchResult.ok ⟨10, "failed", ""⟩)).message
      = "Conversion failed." :=
  ⟨rfl,
    failure_reasons_distinct.1 (handleFileChange initial ["a.mp4"]) "a.mp4"
      FetchResult.threw rfl (fun _ h => by cases h),
    failure_reasons_distinct.2.1 jobStarted FetchResult.notOk (fun _ h => by cases h),
    failure_reasons_distinct.2.2.1 jobStarted 10 ""⟩

/-! ## Terminal phases -/

theorem clearInterval_requests (s : State) : (clearInterval s).requests = s.requests := by
  unfold clearInterval; split <;> rfl

theorem clearInterval_timers_nil (s : State) (h : s.timers = []) :
    (clearInterval s).timers = [] := by
  unfold clearInterval; split
  · exact h
  · simp [h]

theorem pollResume_timers_nil (s : State) (r : FetchResult StatusData)
    (h : s.timers = []) : (pollResume s r).timers = [] := by
  cases r <;> unfold pollResume <;> simp only
  all_goals first
    | exact clearInterval_timers_nil _ h
    | (split_ifs
       · exact clearInterval_timers_nil _ h
       · exact clearInterval_timers_nil _ h
       · exact h)

theorem pollResume_requests (s : State) (r : FetchResult StatusData) :
    (pollResume s r).requests = s.requests := by
  cases r <;> unfold pollResume <;> simp only
  all_goals first
    | rw [clearInterval_requests]
    | (split_ifs <;> simp [clearInterval_requests, setStatus])

theorem pollResume_pollsInFlight (s : State) (r : FetchResult StatusData) :
    (pollResume s r).pollsInFlight = s.pollsInFlight := by
  cases r <;> unfold pollResume <;> simp only
  all_goals first
    | rw [clearInterval_pollsInFlight]
    | (split_ifs <;> simp [clearInterval_pollsInFlight, setStatus])

/-- Once no timer is active, events of the poll loop start none and issue no
request. -/
theorem poll_run_no_timers (es : List Event) (s s2 : State) (ht : s.timers = [])
    (hp : ∀ e ∈ es, e.isPoll = true) (hr : run s es = some s2) :
    s2.timers = [] ∧ s2.requests = s.requests := by
  induction es generalizing s with
  | nil =>
    simp only [run, Option.some.injEq] at hr
    subst hr; exact ⟨ht, rfl⟩
  | cons e es ih =>
    have he := hp e (List.mem_cons_self e es)
    have hrest : ∀ e1 ∈ es, e1.isPoll = true :=
      fun e1 he1 => hp e1 (List.mem_cons_of_mem e he1)
    simp only [run] at hr
    cases e with
    | tick t => rw [step_tick_of_no_timers s ht t] at hr; cases hr
    | statusResponse i r =>
      simp only [step] at hr
      split_ifs at hr with hi
      have h1 := ih (pollResume { s with pollsInFlight := s.pollsInFlight.eraseIdx i } r)
        (pollResume_timers_nil { s with pollsInFlight := s.pollsInFlight.eraseIdx i } r ht)
        hrest hr
      rw [pollResume_requests] at h1
      exact h1
    | fileChange files => cases he
    | formatChange v => cases he
    | qualityChange v => cases he
    | submit => cases he
    | uploadResponse r => cases he

/-- With no timer active and no status request in flight, no event of the poll
loop can happen. -/
theorem poll_step_idle (s : State) (e : Event) (ht : s.timers = [])
    (hfl : s.pollsInFlight = []) (he : e.isPoll = true) : step s e = none := by
  cases e with
  | tick t => exact step_tick_of_no_timers s ht t
  | statusResponse i r => simp [step, hfl]
  | fileChange files => cases he
  | formatChange v => cases he
  | qualityChange v => cases he
  | submit => cases he
  | uploadResponse r => cases he

/-- With no timer active and no status request in flight, the only sequence of
poll events that can happen is the empty one. -/
theorem poll_run_idle (es : List Event) (s s2 : State) (ht : s.timers = [])
    (hfl : s.pollsInFlight = []) (hp : ∀ e ∈ es, e.isPoll = true)
    (hr : run s es = some s2) : es = [] ∧ s2 = s := by
  cases es with
  | nil =>
    simp only [run, Option.some.injEq] at hr
    exact ⟨rfl, hr.symm⟩
  | cons e es =>
    have he := hp e (List.mem_cons_self e es)
    simp only [run] at hr
    rw [poll_step_idle s e ht hfl he] at hr
    cases hr

theorem clearInterval_statusLog (s : State) :
    (clearInterval s).statusLog = s.statusLog := by
  unfold clearInterval; split <;> rfl

theorem clearInterval_timers_sub (s : State) (x : Nat × String)
    (hx : x ∈ (clearInterval s).timers) : x ∈ s.timers := by
  unfold clearInterval at hx
  split at hx
  · exact hx
  · exact (List.mem_filter.mp hx).1

theorem pollResume_pollingInterval (s : State) (r : FetchResult StatusData) :
    (pollResume s r).pollingInterval = s.pollingInterval := by
  cases r <;> unfold pollResume <;> simp only
  all_goals first
    | rw [clearInterval_pollingInterval]
    | (split_ifs <;> simp [clearInterval_pollingInterval, setStatus])

theorem pollResume_timers_sub (s : State) (r : FetchResult StatusData)
    (x : Nat × String) (hx : x ∈ (pollResume s r).timers) : x ∈ s.timers := by
  cases r with
  | threw => have h := clearInterval_timers_sub _ x hx; exact h
  | notOk => have h := clearInterval_timers_sub _ x hx; exact h
  | badBody => have h := clearInterval_timers_sub _ x hx; exact h
  | ok d =>
    unfold pollResume at hx
    simp only at hx
    split_ifs at hx
    · have h := clearInterval_timers_sub _ x hx; exact h
    · have h := clearInterval_timers_sub _ x hx; exact h
    · exact hx

/-- The poll callback keeps the active timers among those held in the ref. -/
theorem pollResume_owned (s : State) (r : FetchResult StatusData)
    (hown : ∀ x ∈ s.timers, s.pollingInterval = some x.1) :
    ∀ x ∈ (pollResume s r).timers, (pollResume s r).pollingInterval = some x.1 := by
  intro x hx
  rw [pollResume_pollingInterval]
  exact hown x (pollResume_timers_sub s r x hx)

theorem pollResume_ok_statusLog (s : State) (d : StatusData) :
    (pollResume s (FetchResult.ok d)).statusLog = s.statusLog ++ [d.status] := by
  unfold pollResume
  simp only
  split_ifs <;> simp [clearInterval_statusLog, setStatus]

theorem pollResume_ok_downloadUrl (s : State) (d : StatusData)
    (h : d.status = "completed") :
    (pollResume s (FetchResult.ok d)).downloadUrl = d.transcoded_video_url := by
  simp [pollResume, h, clearInterval_downloadUrl]

/-- A status response reporting `completed` or `failed` leaves no timer active
when every active timer is the one held in the ref. -/
theorem pollResume_terminal_timers (s : State) (d : StatusData)
    (hown : ∀ x ∈ s.timers, s.pollingInterval = some x.1)
    (hterm : d.status = "completed" ∨ d.status = "failed") :
    (pollResume s (FetchResult.ok d)).timers = [] := by
  rcases hterm with h | h
  · simp only [pollResume, h, if_true]
    exact clearInterval_timers_of_owned _ hown
  · have hne : ¬ (d.status = "completed") := by rw [h]; decide
    simp only [pollResume, hne, if_false, h, if_true]
    exact clearInterval_timers_of_owned _ hown

/-- The `setStatus` calls made along a sequence of poll events are those of its
ok status responses. -/
theorem poll_run_statusLog (es : List Event) (s s2 : State)
    (hp : ∀ e ∈ es, e.isPoll = true) (hr : run s es = some s2) :
    s2.statusLog = s.statusLog ++ respStatuses es := by
  induction es generalizing s with
  | nil =>
    simp only [run, Option.some.injEq] at hr
    subst hr; simp [respStatuses]
  | cons e es ih =>
    have he := hp e (List.mem_cons_self e es)
    have hrest : ∀ e1 ∈ es, e1.isPoll = true :=
      fun e1 he1 => hp e1 (List.mem_cons_of_mem e he1)
    simp only [run] at hr
    cases e with
    | tick t =>
      cases hstep : step s (Event.tick t) with
      | none => rw [hstep] at hr; cases hr
      | some s1 =>
        rw [hstep] at hr
        have h1 := ih s1 hrest hr
        have hlog : s1.statusLog = s.statusLog := by
          simp only [step] at hstep
          split at hstep
          · simp only [Option.some.injEq] at hstep
            subst hstep; rfl
          · cases hstep
        rw [hlog] at h1
        simpa [respStatuses, Event.okStatus] using h1
    | statusResponse i r =>
      simp only [step] at hr
      split_ifs at hr with hi
      have h1 := ih (pollResume { s with pollsInFlight := s.pollsInFlight.eraseIdx i } r)
        hrest hr
      cases r with
      | ok d =>
        rw [pollResume_ok_statusLog] at h1
        simpa [respStatuses, Event.okStatus] using h1
      | threw =>
        simp only [pollResume, clearInterval_statusLog] at h1
        simpa [respStatuses, Event.okStatus] using h1
      | notOk =>
        simp only [pollResume, clearInterval_statusLog] at h1
        simpa [respStatuses, Event.okStatus] using h1
      | badBody =>
        simp only [pollResume, clearInterval_statusLog] at h1
        simpa [respStatuses, Event.okStatus] using h1
    | fileChange files => cases he
    | formatChange v => cases he
    | qualityChange v => cases he
    | submit => cases he
    | uploadResponse r => cases he

/-- A poll event that does not overlap an earlier request keeps the timers among
those held in the ref and at most one status request in flight. -/
theorem serial_step_keeps (s s1 : State) (e : Event)
    (hown : ∀ x ∈ s.timers, s.pollingInterval = some x.1)
    (hlen : s.pollsInFlight.length ≤ 1) (he : e.isPoll = true)
    (hno : e.overlaps s = false) (hs : step s e = some s1) :
    (∀ x ∈ s1.timers, s1.pollingInterval = some x.1) ∧ s1.pollsInFlight.length ≤ 1 := by
  cases e with
  | tick t =>
    have hfl : s.pollsInFlight = [] := by
      simpa [Event.overlaps] using hno
    simp only [step] at hs
    split at hs
    · simp only [Option.some.injEq] at hs
      subst hs
      exact ⟨hown, by simp [pollTick, hfl]⟩
    · cases hs
  | statusResponse i r =>
    simp only [step] at hs
    split_ifs at hs with hi
    simp only [Option.some.injEq] at hs
    subst hs
    refine ⟨pollResume_owned _ r hown, ?_⟩
    rw [pollResume_pollsInFlight]
    match hl : s.pollsInFlight, hlen with
    | [], _ => simp
    | [v], _ =>
      have hi0 : i = 0 := by rw [hl] at hi; simpa using hi
      subst hi0; simp
  | fileChange files => cases he
  | formatChange v => cases he
  | qualityChange v => cases he
  | submit => cases he
  | uploadResponse r => cases he

/-- In a poll loop without overlap a response reporting `completed` or `failed`
is the last poll event: it sets status, progress and (when completed) the
download url, and leaves no timer and no request, so that no poll event can
follow. -/
theorem serial_terminal_last (pre : List Event) (s s2 : State) (post : List Event)
    (i : Nat) (d : StatusData)
    (hown : ∀ x ∈ s.timers, s.pollingInterval = some x.1)
    (hlen : s.pollsInFlight.length ≤ 1)
    (hp : ∀ e ∈ pre ++ Event.statusResponse i (FetchResult.ok d) :: post, e.isPoll = true)
    (hser : serial s (pre ++ Event.statusResponse i (FetchResult.ok d) :: post) = true)
    (hr : run s (pre ++ Event.statusResponse i (FetchResult.ok d) :: post) = some s2)
    (hterm : d.status = "completed" ∨ d.status = "failed") :
    post = [] ∧ s2.status = d.status ∧ s2.progress = d.progress ∧
    (d.status = "completed" → s2.downloadUrl = d.transcoded_video_url) ∧
    s2.timers = [] ∧ s2.pollsInFlight = [] := by
  induction pre generalizing s with
  | nil =>
    simp only [List.nil_append, run, step] at hr
    split_ifs at hr with hi
    have ht := pollResume_terminal_timers
      { s with pollsInFlight := s.pollsInFlight.eraseIdx i } d hown hterm
    have hfl : (pollResume { s with pollsInFlight := s.pollsInFlight.eraseIdx i }
        (FetchResult.ok d)).pollsInFlight = [] := by
      rw [pollResume_pollsInFlight]
      match hl : s.pollsInFlight, hlen with
      | [], _ => rw [hl] at hi; simp at hi
      | [v], _ =>
        have hi0 : i = 0 := by rw [hl] at hi; simpa using hi
        subst hi0; simp
    have hpost : ∀ e ∈ post, e.isPoll = true :=
      fun e he => hp e (by simp [he])
    obtain ⟨hnil, heq⟩ := poll_run_idle post _ s2 ht hfl hpost hr
    subst heq
    exact ⟨hnil, pollResume_ok_status _ d, pollResume_ok_progress _ d,
      pollResume_ok_downloadUrl _ d, ht, hfl⟩
  | cons e pre ih =>
    have he : e.isPoll = true := hp e (by simp)
    simp only [List.cons_append, run] at hr
    simp only [List.cons_append, serial, Bool.and_eq_true, Bool.not_eq_true'] at hser
    cases hstep : step s e with
    | none => rw [hstep] at hr; cases hr
    | some s1 =>
      rw [hstep] at hr
      have hser1 := hser.2
      rw [hstep] at hser1
      obtain ⟨hown1, hlen1⟩ := serial_step_keeps s s1 e hown hlen he hser.1 hstep
      exact ih s1 hown1 hlen1 (fun e1 he1 => hp e1 (by simp [he1])) hser1 hr

/-- C7, as stated, fails: in the first job two ticks issue two status requests;
the answer to the second, `completed` at 100, moves the job to `completed`; the
answer to the first, `processing` at 90, arrives after it and moves the job back
to `processing` at 90. Had the late answer reported `failed`, the job would end
`failed` with the download url of the completed outcome still set. -/
theorem stale_response_leaves_terminal_phase :
    (run jobStarted [Event.tick 1, Event.tick 1,
        Event.statusResponse 1 (FetchResult.ok ⟨100, "completed", "http://x/y.mp4"⟩)]).map
      (fun s => (s.status, s.progress)) = some ("completed", 100) ∧
    (run jobStarted [Event.tick 1, Event.tick 1,
        Event.statusResponse 1 (FetchResult.ok ⟨100, "completed", "http://x/y.mp4"⟩),
        Event.statusResponse 0 (FetchResult.ok ⟨90, "processing", ""⟩)]).map
      (fun s => (s.status, s.progress)) = some ("processing", 90) ∧
    (run jobStarted [Event.tick 1, Event.tick 1,
        Event.statusResponse 1 (FetchResult.ok ⟨100, "completed", "http://x/y.mp4"⟩),
        Event.statusResponse 0 (FetchResult.ok ⟨90, "failed", ""⟩)]).map
      (fun s => (s.status, s.downloadUrl, s.statusLog))
      = some ("failed", "http://x/y.mp4",
          ["uploading", "processing", "completed", "failed"]) := by
  decide

/-- C7, amended. First, whether or not status requests overlap: when a status
response reporting `completed` or `failed` is handled for a job whose timer is
the one held in the ref, the job takes that status and, whatever poll events
follow, no timer is active again and no further status request is issued.
Second, for a poll loop whose status requests do not overlap (every request
settles before the next tick): a response reporting `completed` or `failed` is
the last poll event of the loop, it leaves the status, the progress and, when
completed, the download url it carries, no poll event can happen after it, and
the statuses set along the loop never include both `completed` and `failed`. -/
theorem terminal_phase_absorbing :
    (∀ (s s1 : State) (i : Nat) (d : StatusData),
      (∀ x ∈ s.timers, s.pollingInterval = some x.1) →
      (d.status = "completed" ∨ d.status = "failed") →
      step s (Event.statusResponse i (FetchResult.ok d)) = some s1 →
      s1.status = d.status ∧
      ∀ (es : List Event) (s2 : State), (∀ e ∈ es, e.isPoll = true) →
        run s1 es = some s2 → s2.timers = [] ∧ s2.requests = s1.requests) ∧
    (∀ (s s2 : State) (es : List Event),
      (∀ x ∈ s.timers, s.pollingInterval = some x.1) →
      s.pollsInFlight = [] →
      (∀ e ∈ es, e.isPoll = true) →
      serial s es = true →
      run s es = some s2 →
      (∀ (pre post : List Event) (i : Nat) (d : StatusData),
        es = pre ++ Event.statusResponse i (FetchResult.ok d) :: post →
        (d.status = "completed" ∨ d.status = "failed") →
        post = [] ∧ s2.status = d.status ∧ s2.progress = d.progress ∧
        (d.status = "completed" → s2.downloadUrl = d.transcoded_video_url) ∧
        ∀ e, e.isPoll = true → step s2 e = none) ∧
      s2.statusLog = s.statusLog ++ respStatuses es ∧
      ¬ ("completed" ∈ respStatuses es ∧ "failed" ∈ respStatuses es)) := by
  constructor
  · intro s s1 i d hown hterm hstep
    simp only [step] at hstep
    split_ifs at hstep with hi
    simp only [Option.some.injEq] at hstep
    subst hstep
    refine ⟨pollResume_ok_status _ d, ?_⟩
    intro es s2 hp hr
    exact poll_run_no_timers es _ s2
      (pollResume_terminal_timers
        { s with pollsInFlight := s.pollsInFlight.eraseIdx i } d hown hterm) hp hr
  · intro s s2 es hown hfl hp hser hr
    have hlen : s.pollsInFlight.length ≤ 1 := by simp [hfl]
    have hlast : ∀ (pre post : List Event) (i : Nat) (d : StatusData),
        es = pre ++ Event.statusResponse i (FetchResult.ok d) :: post →
        (d.status = "completed" ∨ d.status = "failed") →
        post = [] ∧ s2.status = d.status ∧ s2.progress = d.progress ∧
        (d.status = "completed" → s2.downloadUrl = d.transcoded_video_url) ∧
        s2.timers = [] ∧ s2.pollsInFlight = [] := by
      intro pre post i d hes hterm
      subst hes
      exact serial_terminal_last pre s s2 post i d hown hlen hp hser hr hterm
    have hmem : ∀ v : String, v = "completed" ∨ v = "failed" → v ∈ respStatuses es →
        s2.status = v := by
      intro v hv hin
      obtain ⟨e, he, hev⟩ := List.mem_filterMap.mp hin
      obtain ⟨pre, post, hes⟩ := List.append_of_mem he
      cases e with
      | statusResponse i r =>
        cases r with
        | ok d =>
          simp only [Event.okStatus, Option.some.injEq] at hev
          have h1 := hlast pre post i d hes (by rw [hev]; exact hv)
          rw [h1.2.1, hev]
        | threw => simp [Event.okStatus] at hev
        | notOk => simp [Event.okStatus] at hev
        | badBody => simp [Event.okStatus] at hev
      | tick t => simp [Event.okStatus] at hev
      | fileChange files => simp [Event.okStatus] at hev
      | formatChange v => simp [Event.okStatus] at hev
      | qualityChange v => simp [Event.okStatus] at hev
      | submit => simp [Event.okStatus] at hev
      | uploadResponse r => simp [Event.okStatus] at hev
    refine ⟨?_, poll_run_statusLog es s s2 hp hr, ?_⟩
    · intro pre post i d hes hterm
      obtain ⟨h1, h2, h3, h4, h5, h6⟩ := hlast pre post i d hes hterm
      exact ⟨h1, h2, h3, h4, fun e he => poll_step_idle s2 e h5 h6 he⟩
    · intro hboth
      have hc := hmem "completed" (Or.inl rfl) hboth.1
      have hf := hmem "failed" (Or.inr rfl) hboth.2
      have : "completed" = "failed" := hc.symm.trans hf
      exact absurd this (by decide)

/-- C7 amended, at the first job: with two overlapping requests, the second
answered `completed`, and along the poll loop `serialPolls` without overlap. -/
theorem terminal_phase_absorbing_witness :
    ((∀ x ∈ twoPolls.timers, twoPolls.pollingInterval = some x.1) ∧
      step twoPolls
          (Event.statusResponse 1 (FetchResult.ok ⟨100, "completed", "http://x/y.mp4"⟩))
        = some twoPollsCompleted ∧
      twoPollsCompleted.status = "completed" ∧
      (run twoPollsCompleted
          [Event.statusResponse 0 (FetchResult.ok ⟨90, "processing", ""⟩)]).map
        State.status = some "processing" ∧
      ∀ (es : List Event) (s2 : State), (∀ e ∈ es, e.isPoll = true) →
        run twoPollsCompleted es = some s2 →
        s2.timers = [] ∧ s2.requests = twoPollsCompleted.requests) ∧
    ((∀ x ∈ jobStarted.timers, jobStarted.pollingInterval = some x.1) ∧
      jobStarted.pollsInFlight = [] ∧
      (∀ e ∈ serialPolls, e.isPoll = true) ∧
      serial jobStarted serialPolls = true ∧
      (run jobStarted serialPolls).map (fun s => (s.status, s.progress, s.downloadUrl))
        = some ("completed", 100, "http://x/y.mp4") ∧
      ∀ s2, run jobStarted serialPolls = some s2 →
        (∀ e, e.isPoll = true → step s2 e = none) ∧
        s2.statusLog = jobStarted.statusLog ++ respStatuses serialPolls ∧
        ¬ ("completed" ∈ respStatuses serialPolls ∧ "failed" ∈ respStatuses serialPolls)) :=
  have h1 := terminal_phase_absorbing.1 twoPolls twoPollsCompleted 1
    ⟨100, "completed", "http://x/y.mp4"⟩ (by decide) (Or.inl rfl) (by decide)
  ⟨⟨by decide, by decide, h1.1, by decide, h1.2⟩,
    ⟨by decide, by decide, by decide, by decide, by decide,
      fun s2 hs =>
        have h2 := terminal_phase_absorbing.2 jobStarted s2 serialPolls (by decide)
          (by decide) (by decide) (by decide) hs
        ⟨(h2.1 [Event.tick 1,
              Event.statusResponse 0 (FetchResult.ok ⟨40, "processing", ""⟩), Event.tick 1]
            [] 0 ⟨100, "completed", "http://x/y.mp4"⟩ rfl (Or.inl rfl)).2.2.2.2,
          h2.2.1, h2.2.2⟩⟩⟩

/-! ## One poll loop at a time -/

/-- C10: in every state reached from the initial one by events the user
interface permits, the status responses carrying `processing`, `completed` or
`failed`, at most one timer is active, an active timer is the one held in the
ref, and a timer is active only while the status is `processing`. -/
theorem at_most_one_poll_loop (es : List Event) (s : State)
    (hk : ∀ e ∈ es, e.statusKnown = true) (hr : run initial es = some s) :
    s.timers.length ≤ 1 ∧
    (s.timers ≠ [] → s.status = "processing") ∧
    (∀ x ∈ s.timers, s.pollingInterval = some x.1) := by
  have h := oneLoop_run es initial s oneLoop_initial hk hr
  exact ⟨h.atMostOne, fun hne => (h.processing hne).1, h.owned⟩

/-- C10 along a run with two jobs: the first completes, the second is started
and polled; its single timer is the one of the second job. -/
theorem at_most_one_poll_loop_witness :
    (run initial [Event.fileChange ["a.mp4"], Event.submit,
        Event.uploadResponse (FetchResult.ok ⟨"abc123"⟩), Event.tick 1,
        Event.statusResponse 0 (FetchResult.ok ⟨100, "completed", "http://x/y.mp4"⟩),
        Event.submit, Event.uploadResponse (FetchResult.ok ⟨"def456"⟩), Event.tick 2]).map
      State.timers = some [(2, "def456")] ∧
    ∀ s, run initial [Event.fileChange ["a.mp4"], Event.submit,
        Event.uploadResponse (FetchResult.ok ⟨"abc123"⟩), Event.tick 1,
        Event.statusResponse 0 (FetchResult.ok ⟨100, "completed", "http://x/y.mp4"⟩),
        Event.submit, Event.uploadResponse (FetchResult.ok ⟨"def456"⟩), Event.tick 2]
        = some s →
      s.timers.length ≤ 1 ∧ (s.timers ≠ [] → s.status = "processing") ∧
        (∀ x ∈ s.timers, s.pollingInterval = some x.1) :=
  ⟨by decide, fun s hs => at_most_one_poll_loop _ s (by decide) hs⟩

end VideoTranscoder
